import Mathlib

/-!
Shallow embedding of the Loom bytecode virtual machine
(src/loom-vm/src/bytecode.rs, vm.rs, memory/mod.rs).

Modelling conventions:
- Rust HashMap String/u64 keyed maps are modelled as association lists with
  replace-on-insert semantics; lookup returns the unique binding.
- i64 is modelled as Int and u32/u64/usize counters as Nat.  None of the
  verified scenarios approaches the machine bounds; Rust aborts on
  debug-mode overflow, so wrap-around states are not modelled.
- f64 payloads are modelled as rationals.  Every float value appearing in
  the verified statements (1.5, 2.0, 3.0, small integers) is exactly
  representable in IEEE-754 binary64, and the only float operations the
  engine performs on them (truncating cast to i64, cast from i64) are
  exact on these inputs, so the rational model agrees with the source.
- Rust casts: (f as i64) truncates toward zero, (i as f64) is the
  rational embedding, (i as usize) wraps modulo 2 to the 64.
- Console output of print/println is not modelled (no claim mentions it);
  their stack effect is.
- Error messages are kept from the source except that embedded quote
  characters around interpolated names are dropped.
-/

namespace Loom

/-- Association list lookup, mirroring HashMap get. -/
def assocFind {κ α : Type} [DecidableEq κ] : List (κ × α) → κ → Option α
  | [], _ => none
  | (k, v) :: rest, key => if k = key then some v else assocFind rest key

/-- Association list insert, mirroring HashMap insert (replaces the binding). -/
def assocInsert {κ α : Type} [DecidableEq κ] : List (κ × α) → κ → α → List (κ × α)
  | [], key, v => [(key, v)]
  | (k, w) :: rest, key, v =>
    if k = key then (key, v) :: rest else (k, w) :: assocInsert rest key v

/-- Association list removal, mirroring HashMap remove (the key is absent after). -/
def assocErase {κ α : Type} [DecidableEq κ] (m : List (κ × α)) (key : κ) : List (κ × α) :=
  m.filter (fun p => p.1 != key)

/-- Value: the tagged runtime value of bytecode.rs. -/
inductive Value where
  | Int (i : ℤ)
  | Float (f : ℚ)
  | Bool (b : Bool)
  | String (s : String)
  | Null
  | Object (id : Nat)
  | Function (id : Nat)
  | Array (id : Nat)
deriving DecidableEq

/-- AccessLevel from bytecode.rs. -/
inductive AccessLevel where
  | Public
  | Private
  | Protected
deriving DecidableEq

/-- Instruction: the bytecode instruction set of bytecode.rs. -/
inductive Instruction where
  | PUSH (v : Value)
  | POP
  | DUP
  | SWAP
  | LOAD_VAR (name : String)
  | STORE_VAR (name : String)
  | LOAD_CONST (index : Nat)
  | ADD
  | SUB
  | MUL
  | DIV
  | MOD
  | NEG
  | EQ
  | NE
  | LT
  | LE
  | GT
  | GE
  | AND
  | OR
  | NOT
  | JMP (offset : Nat)
  | JMP_IF (offset : Nat)
  | JMP_IF_FALSE (offset : Nat)
  | CALL (name : String)
  | CALL_NATIVE (name : String)
  | RETURN
  | NEW (class_name : String)
  | GET_FIELD (name : String)
  | SET_FIELD (name : String)
  | GET_METHOD (name : String)
  | NEW_ARRAY (size : Nat)
  | GET_ELEMENT
  | SET_ELEMENT
  | GET_LENGTH
  | CAST (ty : String)
  | IS_NULL
  | IS_TYPE (ty : String)
  | ALLOC (n : Nat)
  | FREE
  | BREAKPOINT
  | TRACE
  | HALT
  | NOOP
deriving DecidableEq

/-- VmError: the failure taxonomy of error.rs (payload of the Io variant elided). -/
inductive VmError where
  | Io
  | InvalidBytecode (msg : String)
  | Runtime (msg : String)
  | TypeError (msg : String)
  | MemoryError (msg : String)
  | StackOverflow
  | StackUnderflow
  | UndefinedVariable (name : String)
  | UndefinedFunction (name : String)
  | DivisionByZero
  | InvalidInstruction (offset : Nat) (msg : String)
  | Serialization (msg : String)
  | Deserialization (msg : String)
deriving DecidableEq

/-- Function from bytecode.rs. -/
structure Function where
  name : String
  parameters : List String
  locals : List String
  instructions : List Instruction
  return_type : Option String
  access_level : AccessLevel
deriving DecidableEq

/-- Field from bytecode.rs. -/
structure Field where
  name : String
  field_type : String
  access_level : AccessLevel
  is_final : Bool
  default_value : Option Value
deriving DecidableEq

/-- Class from bytecode.rs. -/
structure Class where
  name : String
  parent : Option String
  fields : List (String × Field)
  methods : List (String × Function)
  constructor : Option Function
  access_level : AccessLevel
deriving DecidableEq

/-- BytecodeProgram from bytecode.rs. -/
structure BytecodeProgram where
  name : String
  version : Nat
  constants : List Value
  functions : List (String × Function)
  classes : List (String × Class)
  main_function : String
  globals : List (String × Value)
deriving DecidableEq

/-- Object heap entry from bytecode.rs. -/
structure Object where
  id : Nat
  class_name : String
  fields : List (String × Value)
  ref_count : Nat
deriving DecidableEq

/-- Array heap entry from bytecode.rs. -/
structure Array where
  id : Nat
  element_type : String
  elements : List Value
  ref_count : Nat
deriving DecidableEq

/-- is_truthy from bytecode.rs (declared at namespace level: inside the Value
namespace the constructor names would shadow the builtin types). -/
def is_truthy : Value → Bool
  | .Bool b => b
  | .Int i => i != 0
  | .Float f => f != 0
  | .String s => !s.isEmpty
  | .Null => false
  | .Object _ => true
  | .Function _ => true
  | .Array _ => true

/-- Rust cast f64 to i64: truncation toward zero (exact on the inputs used here). -/
def f64ToI64 (q : ℚ) : ℤ := q.num.tdiv (q.den : ℤ)

/-- Rust cast i64 to f64: exact rational embedding (inputs stay far below 2 to the 53). -/
def i64ToF64 (i : ℤ) : ℚ := (i : ℚ)

/-- Rust cast i64 to usize: two%s-complement wrap modulo 2 to the 64. -/
def i64AsUsize (i : ℤ) : Nat := (i % ((2 : ℤ) ^ 64)).toNat

/-- MemoryManager state from memory/mod.rs (profiler and raw-byte allocator,
declared out of scope by the spec, carry no heap-visible state and are omitted). -/
structure MemoryManager where
  objects : List (Nat × Object)
  arrays : List (Nat × Array)
  next_object_id : Nat
  next_array_id : Nat
deriving DecidableEq

/-- MemoryManager new from memory/mod.rs. -/
def MemoryManager.new : MemoryManager :=
  { objects := [], arrays := [], next_object_id := 1, next_array_id := 1 }

/-- allocate_object from memory/mod.rs: returns the fresh id and the new state. -/
def MemoryManager.allocate_object (m : MemoryManager) (class_name : String) :
    Nat × MemoryManager :=
  let id := m.next_object_id
  (id, { m with
          next_object_id := id + 1,
          objects := assocInsert m.objects id
            { id := id, class_name := class_name, fields := [], ref_count := 1 } })

/-- allocate_array from memory/mod.rs: size elements initialized to Null. -/
def MemoryManager.allocate_array (m : MemoryManager) (element_type : String)
    (size : Nat) : Nat × MemoryManager :=
  let id := m.next_array_id
  (id, { m with
          next_array_id := id + 1,
          arrays := assocInsert m.arrays id
            { id := id, element_type := element_type,
              elements := List.replicate size Value.Null, ref_count := 1 } })

/-- get_object from memory/mod.rs (returns a snapshot of the entry). -/
def MemoryManager.get_object (m : MemoryManager) (id : Nat) : Option Object :=
  assocFind m.objects id

/-- get_array from memory/mod.rs. -/
def MemoryManager.get_array (m : MemoryManager) (id : Nat) : Option Array :=
  assocFind m.arrays id

/-- update_object from memory/mod.rs: replaces the entry, error when the id
is absent.  The method takes the manager by reference and returns a Result,
so it is modelled as returning both the Result and the state it left behind:
the error branch performs no write. -/
def MemoryManager.update_object (m : MemoryManager) (object : Object) :
    Except VmError Unit × MemoryManager :=
  if (assocFind m.objects object.id).isSome then
    (.ok (), { m with objects := assocInsert m.objects object.id object })
  else
    (.error (.Runtime "Object not found"), m)

/-- update_array from memory/mod.rs. -/
def MemoryManager.update_array (m : MemoryManager) (array : Array) :
    Except VmError Unit × MemoryManager :=
  if (assocFind m.arrays array.id).isSome then
    (.ok (), { m with arrays := assocInsert m.arrays array.id array })
  else
    (.error (.Runtime "Array not found"), m)

/-- increment_ref from memory/mod.rs (always returns Ok in the source,
so it is modelled as a plain state transformer). -/
def MemoryManager.increment_ref (m : MemoryManager) (v : Value) : MemoryManager :=
  match v with
  | .Object id =>
    match assocFind m.objects id with
    | some obj =>
        { m with objects := assocInsert m.objects id { obj with ref_count := obj.ref_count + 1 } }
    | none => m
  | .Array id =>
    match assocFind m.arrays id with
    | some arr =>
        { m with arrays := assocInsert m.arrays id { arr with ref_count := arr.ref_count + 1 } }
    | none => m
  | _ => m

/-- decrement_ref from memory/mod.rs: decrements, removing the entry when the
count reaches zero.  The u32 decrement aborts on underflow in the source; a
count-zero entry never exists (see the C9 theorems), so that case is unreachable. -/
def MemoryManager.decrement_ref (m : MemoryManager) (v : Value) : MemoryManager :=
  match v with
  | .Object id =>
    match assocFind m.objects id with
    | some obj =>
        let c := obj.ref_count - 1
        if c = 0 then { m with objects := assocErase m.objects id }
        else { m with objects := assocInsert m.objects id { obj with ref_count := c } }
    | none => m
  | .Array id =>
    match assocFind m.arrays id with
    | some arr =>
        let c := arr.ref_count - 1
        if c = 0 then { m with arrays := assocErase m.arrays id }
        else { m with arrays := assocInsert m.arrays id { arr with ref_count := c } }
    | none => m
  | _ => m

/-- CallFrame from vm.rs. -/
structure CallFrame where
  function_name : String
  return_address : Nat
  locals : List (String × Value)
  stack_base : Nat
deriving DecidableEq

/-- LoomVM state from vm.rs.  The head of the stack list is the top of stack. -/
structure LoomVM where
  memory : MemoryManager
  program : Option BytecodeProgram
  stack : List Value
  locals : List (String × Value)
  globals : List (String × Value)
  call_stack : List CallFrame
  ip : Nat
  current_function : Option String
  debug_mode : Bool
deriving DecidableEq

/-- LoomVM new from vm.rs. -/
def LoomVM.new : LoomVM :=
  { memory := MemoryManager.new, program := none, stack := [], locals := [],
    globals := [], call_stack := [], ip := 0, current_function := none,
    debug_mode := false }

/-- A step outcome: the Rust methods mutate self and return a Result, so every
operation yields both the Result and the state left behind (the state is
unchanged whenever the source performed no mutation before the error). -/
abbrev StepResult := Except VmError Value × LoomVM

/-- get_variable from vm.rs: locals first, then globals. -/
def get_variable (st : LoomVM) (name : String) : Except VmError Value :=
  match assocFind st.locals name with
  | some v => .ok v
  | none =>
    match assocFind st.globals name with
    | some v => .ok v
    | none => .error (.UndefinedVariable name)

/-- set_variable from vm.rs: always writes into locals. -/
def set_variable (st : LoomVM) (name : String) (v : Value) : LoomVM :=
  { st with locals := assocInsert st.locals name v }

/-- execute_binary_op from vm.rs: pops b then a, funnels every case through
the i64 operator op, truncating float operands to integers and re-widening
the integer result, exactly as the source does. -/
def execute_binary_op (st : LoomVM) (op : ℤ → ℤ → Except VmError ℤ) : StepResult :=
  match st.stack with
  | [] => (.error .StackUnderflow, st)
  | [_] => (.error .StackUnderflow, { st with stack := [] })
  | b :: a :: rest =>
    let st := { st with stack := rest }
    match a, b with
    | .Int x, .Int y =>
      match op x y with
      | .error e => (.error e, st)
      | .ok r => (.ok (.Int r), { st with stack := .Int r :: rest })
    | .Float x, .Float y =>
      match op (f64ToI64 x) (f64ToI64 y) with
      | .error e => (.error e, st)
      | .ok r => (.ok (.Float (i64ToF64 r)), { st with stack := .Float (i64ToF64 r) :: rest })
    | .Int x, .Float y =>
      match op x (f64ToI64 y) with
      | .error e => (.error e, st)
      | .ok r => (.ok (.Float (i64ToF64 r)), { st with stack := .Float (i64ToF64 r) :: rest })
    | .Float x, .Int y =>
      match op (f64ToI64 x) y with
      | .error e => (.error e, st)
      | .ok r => (.ok (.Float (i64ToF64 r)), { st with stack := .Float (i64ToF64 r) :: rest })
    | _, _ => (.error (.TypeError "Invalid operands for arithmetic operation"), st)

/-- execute_comparison from vm.rs: pops b then a and applies the i64 predicate
op, truncating floats to integers and comparing strings by byte length. -/
def execute_comparison (st : LoomVM) (op : ℤ → ℤ → Bool) : StepResult :=
  match st.stack with
  | [] => (.error .StackUnderflow, st)
  | [_] => (.error .StackUnderflow, { st with stack := [] })
  | b :: a :: rest =>
    let st := { st with stack := rest }
    match a, b with
    | .Int x, .Int y =>
      (.ok (.Bool (op x y)), { st with stack := .Bool (op x y) :: rest })
    | .Float x, .Float y =>
      (.ok (.Bool (op (f64ToI64 x) (f64ToI64 y))),
       { st with stack := .Bool (op (f64ToI64 x) (f64ToI64 y)) :: rest })
    | .String s, .String t =>
      (.ok (.Bool (op (s.utf8ByteSize : ℤ) (t.utf8ByteSize : ℤ))),
       { st with stack := .Bool (op (s.utf8ByteSize : ℤ) (t.utf8ByteSize : ℤ)) :: rest })
    | _, _ => (.error (.TypeError "Invalid operands for comparison"), st)

/-- execute_logical_op from vm.rs: requires two booleans. -/
def execute_logical_op (st : LoomVM) (op : Bool → Bool → Bool) : StepResult :=
  match st.stack with
  | [] => (.error .StackUnderflow, st)
  | [_] => (.error .StackUnderflow, { st with stack := [] })
  | b :: a :: rest =>
    let st := { st with stack := rest }
    match a, b with
    | .Bool x, .Bool y =>
      (.ok (.Bool (op x y)), { st with stack := .Bool (op x y) :: rest })
    | _, _ => (.error (.TypeError "Invalid operands for logical operation"), st)

/-- call_native_function from vm.rs: the dispatch loop recognizes only print
and println; every other name fails (the Runtime registry of runtime.rs is
never constructed by the VM). -/
def call_native_function (st : LoomVM) (name : String) : StepResult :=
  if name = "print" ∨ name = "println" then
    match st.stack with
    | [] => (.error .StackUnderflow, st)
    | _ :: rest => (.ok .Null, { st with stack := rest })
  else
    (.error (.UndefinedFunction ("native:" ++ name)), st)

/-- get_object_field from vm.rs: every failure collapses to the same Runtime error. -/
def get_object_field (st : LoomVM) (object_value : Value) (field_name : String) :
    Except VmError Value :=
  match object_value with
  | .Object id =>
    match st.memory.get_object id with
    | some object =>
      match assocFind object.fields field_name with
      | some v => .ok v
      | none => .error (.Runtime ("Field " ++ field_name ++ " not found"))
    | none => .error (.Runtime ("Field " ++ field_name ++ " not found"))
  | _ => .error (.Runtime ("Field " ++ field_name ++ " not found"))

/-- set_object_field from vm.rs: reads a snapshot, inserts the field into the
snapshot, writes it back through update_object; the error paths write
nothing, so they return the incoming state. -/
def set_object_field (st : LoomVM) (object_value : Value) (field_name : String)
    (v : Value) : Except VmError Unit × LoomVM :=
  match object_value with
  | .Object id =>
    match st.memory.get_object id with
    | some object =>
      let (r, m) := st.memory.update_object
          { object with fields := assocInsert object.fields field_name v }
      (r, { st with memory := m })
    | none => (.error (.Runtime ("Cannot set field " ++ field_name)), st)
  | _ => (.error (.Runtime ("Cannot set field " ++ field_name)), st)

/-- get_array_element from vm.rs: the i64 index is cast to usize with wrap-around. -/
def get_array_element (st : LoomVM) (array_value index_value : Value) :
    Except VmError Value :=
  match array_value, index_value with
  | .Array id, .Int index =>
    match st.memory.get_array id with
    | some array =>
      match array.elements[i64AsUsize index]? with
      | some element => .ok element
      | none => .error (.Runtime "Invalid array access")
    | none => .error (.Runtime "Invalid array access")
  | _, _ => .error (.Runtime "Invalid array access")

/-- set_array_element from vm.rs: in-bounds check on the snapshot before the
single write through update_array; the error paths write nothing, so they
return the incoming state. -/
def set_array_element (st : LoomVM) (array_value index_value v : Value) :
    Except VmError Unit × LoomVM :=
  match array_value, index_value with
  | .Array id, .Int index =>
    match st.memory.get_array id with
    | some array =>
      if i64AsUsize index < array.elements.length then
        let (r, m) := st.memory.update_array
            { array with elements := array.elements.set (i64AsUsize index) v }
        (r, { st with memory := m })
      else (.error (.Runtime "Invalid array access"), st)
    | none => (.error (.Runtime "Invalid array access"), st)
  | _, _ => (.error (.Runtime "Invalid array access"), st)

/-- get_array_length from vm.rs. -/
def get_array_length (st : LoomVM) (array_value : Value) : Except VmError Nat :=
  match array_value with
  | .Array id =>
    match st.memory.get_array id with
    | some array => .ok array.elements.length
    | none => .error (.Runtime "Invalid array")
  | _ => .error (.Runtime "Invalid array")

/-- execute_instruction from vm.rs, covering every instruction except CALL
(whose recursive case lives in the mutual block below so the interpreter
terminates; the semantics of each arm is untouched).  The returned Value is
the Ok payload of the source match arm, which the dispatch loop records as
the running result. -/
def execute_instruction (st : LoomVM) (instruction : Instruction) : StepResult :=
  match instruction with
  | .PUSH v => (.ok .Null, { st with stack := v :: st.stack })
  | .POP =>
    match st.stack with
    | [] => (.error .StackUnderflow, st)
    | v :: rest => (.ok v, { st with stack := rest })
  | .DUP =>
    match st.stack with
    | [] => (.error .StackUnderflow, st)
    | v :: rest => (.ok v, { st with stack := v :: v :: rest })
  | .SWAP =>
    match st.stack with
    | b :: a :: rest => (.ok .Null, { st with stack := a :: b :: rest })
    | _ => (.error .StackUnderflow, st)
  | .LOAD_VAR name =>
    match get_variable st name with
    | .ok v => (.ok v, { st with stack := v :: st.stack })
    | .error e => (.error e, st)
  | .STORE_VAR name =>
    match st.stack with
    | [] => (.error .StackUnderflow, st)
    | v :: rest => (.ok v, set_variable { st with stack := rest } name v)
  | .LOAD_CONST index =>
    match st.program with
    | none => (.error (.Runtime "No program loaded"), st)
    | some program =>
      match program.constants[index]? with
      | none => (.error (.Runtime "Invalid constant index"), st)
      | some v => (.ok v, { st with stack := v :: st.stack })
  | .ADD => execute_binary_op st (fun a b => .ok (a + b))
  | .SUB => execute_binary_op st (fun a b => .ok (a - b))
  | .MUL => execute_binary_op st (fun a b => .ok (a * b))
  | .DIV => execute_binary_op st
      (fun a b => if b = 0 then .error .DivisionByZero else .ok (a.tdiv b))
  | .MOD => execute_binary_op st
      (fun a b => if b = 0 then .error .DivisionByZero else .ok (a.tmod b))
  | .NEG =>
    match st.stack with
    | [] => (.error .StackUnderflow, st)
    | v :: rest =>
      match v with
      | .Int i => (.ok (.Int (-i)), { st with stack := .Int (-i) :: rest })
      | .Float f => (.ok (.Float (-f)), { st with stack := .Float (-f) :: rest })
      | _ => (.error (.TypeError "Cannot negate non-numeric value"), { st with stack := rest })
  | .EQ => execute_comparison st (fun a b => a == b)
  | .NE => execute_comparison st (fun a b => a != b)
  | .LT => execute_comparison st (fun a b => decide (a < b))
  | .LE => execute_comparison st (fun a b => decide (a ≤ b))
  | .GT => execute_comparison st (fun a b => decide (a > b))
  | .GE => execute_comparison st (fun a b => decide (a ≥ b))
  | .AND => execute_logical_op st (fun a b => a && b)
  | .OR => execute_logical_op st (fun a b => a || b)
  | .NOT =>
    match st.stack with
    | [] => (.error .StackUnderflow, st)
    | v :: rest =>
      match v with
      | .Bool b => (.ok (.Bool (!b)), { st with stack := .Bool (!b) :: rest })
      | _ => (.error (.TypeError "Cannot apply NOT to non-boolean value"), { st with stack := rest })
  | .JMP offset => (.ok .Null, { st with ip := offset })
  | .JMP_IF offset =>
    match st.stack with
    | [] => (.error .StackUnderflow, st)
    | condition :: rest =>
      if is_truthy condition then (.ok .Null, { st with stack := rest, ip := offset })
      else (.ok .Null, { st with stack := rest })
  | .JMP_IF_FALSE offset =>
    match st.stack with
    | [] => (.error .StackUnderflow, st)
    | condition :: rest =>
      if !(is_truthy condition) then (.ok .Null, { st with stack := rest, ip := offset })
      else (.ok .Null, { st with stack := rest })
  | .CALL _ => (.error (.Runtime "CALL handled by the dispatch loop"), st)
  | .CALL_NATIVE name => call_native_function st name
  | .RETURN =>
    match st.stack with
    | [] => (.ok .Null, st)
    | v :: rest => (.ok v, { st with stack := rest })
  | .NEW class_name =>
    let (object_id, m) := st.memory.allocate_object class_name
    (.ok (.Object object_id),
     { st with memory := m, stack := .Object object_id :: st.stack })
  | .GET_FIELD field_name =>
    match st.stack with
    | [] => (.error .StackUnderflow, st)
    | object_value :: rest =>
      let st := { st with stack := rest }
      match get_object_field st object_value field_name with
      | .ok v => (.ok v, { st with stack := v :: rest })
      | .error e => (.error e, st)
  | .SET_FIELD field_name =>
    match st.stack with
    | [] => (.error .StackUnderflow, st)
    | [_] => (.error .StackUnderflow, { st with stack := [] })
    | v :: object_value :: rest =>
      let st := { st with stack := rest }
      match set_object_field st object_value field_name v with
      | (.ok _, st2) => (.ok v, { st2 with stack := v :: rest })
      | (.error e, st2) => (.error e, st2)
  | .NEW_ARRAY size =>
    let (array_id, m) := st.memory.allocate_array "any" size
    (.ok (.Array array_id),
     { st with memory := m, stack := .Array array_id :: st.stack })
  | .GET_ELEMENT =>
    match st.stack with
    | [] => (.error .StackUnderflow, st)
    | [_] => (.error .StackUnderflow, { st with stack := [] })
    | index_value :: array_value :: rest =>
      let st := { st with stack := rest }
      match get_array_element st array_value index_value with
      | .ok element => (.ok element, { st with stack := element :: rest })
      | .error e => (.error e, st)
  | .SET_ELEMENT =>
    match st.stack with
    | [] => (.error .StackUnderflow, st)
    | [_] => (.error .StackUnderflow, { st with stack := [] })
    | [_, _] => (.error .StackUnderflow, { st with stack := [] })
    | v :: index_value :: array_value :: rest =>
      let st := { st with stack := rest }
      match set_array_element st array_value index_value v with
      | (.ok _, st2) => (.ok v, { st2 with stack := v :: rest })
      | (.error e, st2) => (.error e, st2)
  | .GET_LENGTH =>
    match st.stack with
    | [] => (.error .StackUnderflow, st)
    | array_value :: rest =>
      let st := { st with stack := rest }
      match get_array_length st array_value with
      | .ok length => (.ok (.Int (length : ℤ)), { st with stack := .Int (length : ℤ) :: rest })
      | .error e => (.error e, st)
  | .HALT => (.ok .Null, st)
  | .NOOP => (.ok .Null, st)
  | .BREAKPOINT => (.ok .Null, st)
  | .TRACE =>
    match st.stack with
    | [] => (.ok .Null, st)
    | v :: _ => (.ok v, st)
  | _ => (.error (.InvalidInstruction st.ip "Unimplemented instruction"), st)

/-- The CallFrame pushed on function entry by execute_function in vm.rs: it
records the current ip, an EMPTY locals map (the source literally stores
HashMap new, not the callers locals) and the stack base. -/
def frame_push (st : LoomVM) (function : Function) : LoomVM :=
  let call_frame : CallFrame :=
    { function_name := function.name, return_address := st.ip,
      locals := [], stack_base := st.stack.length }
  { st with call_stack := call_frame :: st.call_stack,
            current_function := some function.name }

/-- The frame restoration performed by execute_function in vm.rs after the
body ran without error: pops the frame and installs its ip and its (empty)
locals map, then clears current_function. -/
def frame_pop (st : LoomVM) : LoomVM :=
  let st1 :=
    match st.call_stack with
    | frame :: rest =>
      { st with call_stack := rest, ip := frame.return_address,
                locals := frame.locals }
    | [] => st
  { st1 with current_function := none }

/-- execute_instructions from vm.rs, plus (inlined, so that the interpreter is
structurally recursive on the fuel) the CALL arm of execute_instruction, namely
call_function and execute_function.  The source loop iterates the instruction
sequence with iter().enumerate(): it sets self.ip to the position i of the
current instruction BEFORE executing it and then unconditionally moves to the
next list element, so assignments to self.ip made by jump instructions are
overwritten and never consulted, and RETURN does not leave the loop.  The
running result is the Ok payload of the last executed instruction.  On an
error the source question mark operator propagates before the frame is
popped.  The fuel argument is a Lean termination device only: it is spent one
unit per executed instruction and per call entry, decreases structurally, and
is never exhausted in any statement proved below. -/
def execute_instructions : Nat → LoomVM → List Instruction → Nat → Value → StepResult
  | _, st, [], _, result => (.ok result, st)
  | 0, st, _ :: _, _, _ => (.error (.Runtime "fuel exhausted"), st)
  | fuel + 1, st, instruction :: remaining, i, _ =>
    let st1 := { st with ip := i }
    match instruction with
    | .CALL name =>
      -- call_function from vm.rs: resolves the name in the function table,
      -- then execute_function pushes a frame, runs the body and pops.
      match st1.program with
      | none => (.error (.Runtime "No program loaded"), st1)
      | some program =>
        match assocFind program.functions name with
        | none => (.error (.UndefinedFunction name), st1)
        | some function =>
          match execute_instructions fuel (frame_push st1 function)
              function.instructions 0 .Null with
          | (.error e, st2) => (.error e, st2)
          | (.ok v, st2) =>
            execute_instructions fuel (frame_pop st2) remaining (i + 1) v
    | _ =>
      match execute_instruction st1 instruction with
      | (.error e, st2) => (.error e, st2)
      | (.ok v, st2) => execute_instructions fuel st2 remaining (i + 1) v

/-- execute_function from vm.rs, assembled from the same frame_push, body run
and frame_pop steps that the CALL arm above performs. -/
def execute_function (fuel : Nat) (st : LoomVM) (function : Function) : StepResult :=
  match execute_instructions fuel (frame_push st function)
      function.instructions 0 .Null with
  | (.error e, st2) => (.error e, st2)
  | (.ok result, st2) => (.ok result, frame_pop st2)

/-- call_function from vm.rs: resolves the name in the function table. -/
def call_function (fuel : Nat) (st : LoomVM) (name : String) : StepResult :=
  match st.program with
  | none => (.error (.Runtime "No program loaded"), st)
  | some program =>
    match assocFind program.functions name with
    | some function => execute_function fuel st function
    | none => (.error (.UndefinedFunction name), st)

/-- execute_program from vm.rs: seeds the globals from the artifact, resolves
the entry function and executes it.  The source discards the resulting Value
and returns Ok unit; the Value is kept here so the statements below can
observe what the entry function returned. -/
def execute_program (fuel : Nat) (st : LoomVM) : StepResult :=
  match st.program with
  | none => (.error (.Runtime "No program loaded"), st)
  | some program =>
    let st1 := { st with globals := program.globals }
    match assocFind program.functions program.main_function with
    | some function => execute_function fuel st1 function
    | none => (.error (.UndefinedFunction program.main_function), st1)

/-- Running a decoded artifact on a fresh VM (execute_file minus file IO). -/
def run_program (fuel : Nat) (program : BytecodeProgram) : StepResult :=
  execute_program fuel { LoomVM.new with program := some program }

/-- Convenience constructor for single-function test artifacts. -/
def mkProgram (constants : List Value) (functions : List (String × Function))
    (globals : List (String × Value)) : BytecodeProgram :=
  { name := "test", version := 1, constants := constants, functions := functions,
    classes := [], main_function := "main", globals := globals }

/-- Convenience constructor for a function body. -/
def mkFun (name : String) (instructions : List Instruction) : Function :=
  { name := name, parameters := [], locals := [], instructions := instructions,
    return_type := none, access_level := .Public }

/-- Decidable equality of Except results, built so that it reduces. -/
instance {ε α : Type} [DecidableEq ε] [DecidableEq α] : DecidableEq (Except ε α)
  | .error a, .error b =>
    match decEq a b with
    | .isTrue h => .isTrue (h ▸ rfl)
    | .isFalse h => .isFalse (fun hh => h (Except.error.inj hh))
  | .error _, .ok _ => .isFalse Except.noConfusion
  | .ok _, .error _ => .isFalse Except.noConfusion
  | .ok a, .ok b =>
    match decEq a b with
    | .isTrue h => .isTrue (h ▸ rfl)
    | .isFalse h => .isFalse (fun hh => h (Except.ok.inj hh))

/-- The right-operand comparator that each comparison opcode passes to
execute_comparison in vm.rs (none for non-comparison opcodes).  This is the
specification-side description used to state the amended C4. -/
def comparisonOp : Instruction → Option (ℤ → ℤ → Bool)
  | .EQ => some (fun a b => a == b)
  | .NE => some (fun a b => a != b)
  | .LT => some (fun a b => decide (a < b))
  | .LE => some (fun a b => decide (a ≤ b))
  | .GT => some (fun a b => decide (a > b))
  | .GE => some (fun a b => decide (a ≥ b))
  | _ => none

/-- An arbitrary call into the public surface of MemoryManager, used to
quantify over every heap history a VM lifetime can produce. -/
inductive MemOp where
  | allocObject (class_name : String)
  | allocArray (element_type : String) (size : Nat)
  | incRef (v : Value)
  | decRef (v : Value)
  | updObject (o : Object)
  | updArray (a : Array)

/-- State effect of one MemoryManager call (a failed update leaves the
state unchanged, exactly as update_object and update_array do). -/
def MemOp.apply (m : MemoryManager) : MemOp → MemoryManager
  | .allocObject cn => (m.allocate_object cn).2
  | .allocArray ty n => (m.allocate_array ty n).2
  | .incRef v => m.increment_ref v
  | .decRef v => m.decrement_ref v
  | .updObject o => (m.update_object o).2
  | .updArray a => (m.update_array a).2

/-- The heap state after a sequence of MemoryManager calls. -/
def applyOps (m : MemoryManager) : List MemOp → MemoryManager
  | [] => m
  | op :: rest => applyOps (op.apply m) rest

/-- The object ids handed out by allocate_object along a call sequence. -/
def objIdsReturned (m : MemoryManager) : List MemOp → List Nat
  | [] => []
  | .allocObject cn :: rest =>
    (m.allocate_object cn).1 :: objIdsReturned (MemOp.apply m (.allocObject cn)) rest
  | op :: rest => objIdsReturned (op.apply m) rest

/-- The array ids handed out by allocate_array along a call sequence. -/
def arrIdsReturned (m : MemoryManager) : List MemOp → List Nat
  | [] => []
  | .allocArray ty n :: rest =>
    (m.allocate_array ty n).1 :: arrIdsReturned (MemOp.apply m (.allocArray ty n)) rest
  | op :: rest => arrIdsReturned (op.apply m) rest

/-- Number of object allocations in a call sequence. -/
def countObjAllocs : List MemOp → Nat
  | [] => 0
  | .allocObject _ :: rest => countObjAllocs rest + 1
  | _ :: rest => countObjAllocs rest

/-- Number of array allocations in a call sequence. -/
def countArrAllocs : List MemOp → Nat
  | [] => 0
  | .allocArray _ _ :: rest => countArrAllocs rest + 1
  | _ :: rest => countArrAllocs rest

/-- Every entry of both stores carries a reference count of at least one. -/
def countsPosB (m : MemoryManager) : Bool :=
  m.objects.all (fun p => decide (1 ≤ p.2.ref_count)) &&
  m.arrays.all (fun p => decide (1 ≤ p.2.ref_count))

/-- Propositional form of countsPosB. -/
def CountsPos (m : MemoryManager) : Prop := countsPosB m = true

/-- Every stored id lies strictly below the corresponding counter (so the
next handed-out id is fresh). -/
def IdsBelowNext (m : MemoryManager) : Prop :=
  (∀ id o, assocFind m.objects id = some o → id < m.next_object_id) ∧
  (∀ id a, assocFind m.arrays id = some a → id < m.next_array_id)

/-- C1 control-flow scenario: constants true, 1, 2 and the branch program of
the specification.  Under the specified jump semantics it would return
Integer 1. -/
def controlFlowProgram : BytecodeProgram :=
  mkProgram [Value.Bool true, Value.Int 1, Value.Int 2]
    [("main", mkFun "main"
      [.LOAD_CONST 0, .JMP_IF_FALSE 4, .LOAD_CONST 1, .JMP 5, .LOAD_CONST 2, .RETURN])]
    []

/-- C2 scenario a: main stores local x and calls f, which does nothing; after
the return main reads x.  Under the specified frame semantics this returns
Integer 1. -/
def callerLocalsProgram : BytecodeProgram :=
  mkProgram []
    [("main", mkFun "main"
      [.PUSH (Value.Int 1), .STORE_VAR "x", .CALL "f", .LOAD_VAR "x", .RETURN]),
     ("f", mkFun "f" [.RETURN])]
    []

/-- C2 scenario b: main stores local x and calls g, whose body reads x.
Under the specified fresh-locals semantics (and empty globals) the callee
would fail with UndefinedVariable x. -/
def calleeLocalsProgram : BytecodeProgram :=
  mkProgram []
    [("main", mkFun "main"
      [.PUSH (Value.Int 1), .STORE_VAR "x", .CALL "g", .RETURN]),
     ("g", mkFun "g" [.LOAD_VAR "x", .RETURN])]
    []

/-- C5 native-call scenario of the specification. -/
def nativeCallProgram : BytecodeProgram :=
  mkProgram []
    [("main", mkFun "main"
      [.PUSH (Value.String "hi"), .CALL_NATIVE "toUpperCase", .RETURN])]
    []

/-- C6 object round-trip scenario of the specification. -/
def objectRoundTripProgram : BytecodeProgram :=
  mkProgram []
    [("main", mkFun "main"
      [.NEW "Point", .DUP, .PUSH (Value.Int 5), .SET_FIELD "x", .POP,
       .GET_FIELD "x", .RETURN])]
    []

/-- C8 division-by-zero scenario of the specification. -/
def divZeroProgram : BytecodeProgram :=
  mkProgram []
    [("main", mkFun "main" [.PUSH (Value.Int 10), .PUSH (Value.Int 0), .DIV])]
    []

/-- Heap with one object of count 2 and one array of count 1, used to
instantiate the reference-count statements. -/
def memW : MemoryManager :=
  { objects := [(1, { id := 1, class_name := "A", fields := [], ref_count := 2 })],
    arrays := [(3, { id := 3, element_type := "int", elements := [Value.Null], ref_count := 1 })],
    next_object_id := 2, next_array_id := 4 }

/-- Lookup after insert: the inserted key maps to the new value, every other
key is unaffected. -/
theorem assocFind_insert {κ α : Type} [DecidableEq κ] (m : List (κ × α)) (key key2 : κ) (v : α) :
    assocFind (assocInsert m key v) key2 = if key = key2 then some v else assocFind m key2 := by
  induction m with
  | nil =>
    by_cases h2 : key = key2 <;> simp [assocFind, assocInsert, h2]
  | cons p rest ih =>
    obtain ⟨k, w⟩ := p
    by_cases hk : k = key
    · subst hk
      by_cases h2 : k = key2 <;> simp [assocFind, assocInsert, h2]
    · by_cases h2 : k = key2
      · subst h2
        have hkey : ¬ (key = k) := fun h => hk h.symm
        simp [assocFind, assocInsert, hk, hkey]
      · simp [assocFind, assocInsert, hk, h2, ih]

/-- Lookup after erase: the erased key is absent, every other key unaffected. -/
theorem assocFind_erase {κ α : Type} [DecidableEq κ] (m : List (κ × α)) (key key2 : κ) :
    assocFind (assocErase m key) key2 = if key = key2 then none else assocFind m key2 := by
  induction m with
  | nil => simp [assocFind, assocErase]
  | cons p rest ih =>
    obtain ⟨k, w⟩ := p
    simp only [assocErase, List.filter] at ih ⊢
    by_cases hk : k = key
    · subst hk
      simp only [bne_self_eq_false]
      rw [ih]
      by_cases h2 : k = key2
      · subst h2; simp
      · simp [assocFind, h2]
    · have hbne : (k != key) = true := bne_iff_ne.mpr hk
      simp only [hbne]
      by_cases h2 : k = key2
      · subst h2
        simp [assocFind, if_neg (fun hh : key = k => hk hh.symm)]
      · simp [assocFind, h2, ih]

/-- A successful lookup exhibits a member of the association list. -/
theorem assocFind_some_mem {κ α : Type} [DecidableEq κ] (m : List (κ × α)) (key : κ) (v : α)
    (h : assocFind m key = some v) : (key, v) ∈ m := by
  induction m with
  | nil => simp [assocFind] at h
  | cons p rest ih =>
    obtain ⟨k, w⟩ := p
    by_cases hk : k = key
    · subst hk
      simp [assocFind] at h
      subst h
      exact List.mem_cons_self _ _
    · simp [assocFind, hk] at h
      exact List.mem_cons_of_mem _ (ih h)

/-- A pointwise-true predicate survives an insert whose new pair satisfies it. -/
theorem all_assocInsert {κ α : Type} [DecidableEq κ] (m : List (κ × α)) (key : κ) (v : α)
    (p : κ × α → Bool) (hm : m.all p = true) (hv : p (key, v) = true) :
    (assocInsert m key v).all p = true := by
  induction m with
  | nil => simp [assocInsert, hv]
  | cons q rest ih =>
    obtain ⟨k, w⟩ := q
    simp only [List.all_cons, Bool.and_eq_true] at hm
    by_cases hk : k = key
    · subst hk
      simp [assocInsert, hv, hm.2]
    · simp [assocInsert, hk, hm.1, ih hm.2]

/-- A pointwise-true predicate survives filtering. -/
theorem all_filter {α : Type} (m : List α) (p q : α → Bool) (hm : m.all p = true) :
    (m.filter q).all p = true := by
  simp only [List.all_eq_true] at hm ⊢
  intro x hx
  exact hm x (List.mem_filter.mp hx).1

/-- C1: the dispatch loop walks instructions with iter().enumerate() and
resets self.ip to the loop index before every instruction, so the ip values
written by JMP, JMP_IF and JMP_IF_FALSE are never consulted and RETURN does
not stop the loop.  On the control-flow scenario (constants true, 1, 2) every
instruction therefore executes in order and the entry function returns
Integer 2, not the Integer 1 the claim requires. -/
theorem c1_branches_not_taken :
    (run_program 32 controlFlowProgram).1 = .ok (Value.Int 2) ∧
    (run_program 32 controlFlowProgram).1 ≠ .ok (Value.Int 1) :=
  ⟨rfl, by decide⟩

/-- C2: execute_function stores an EMPTY locals map in the frame, does not
give the callee fresh locals, and on return installs the frame map, erasing
the callers locals.  Scenario a (main sets x, calls the empty function f,
then reads x) must return Integer 1 under the claim but fails with
UndefinedVariable x.  Scenario b (the callee g reads the callers local x with
empty globals) must fail with UndefinedVariable x under the claim but
succeeds, returning Null. -/
theorem c2_frame_locals_not_restored :
    (run_program 32 callerLocalsProgram).1 = .error (.UndefinedVariable "x") ∧
    (run_program 32 callerLocalsProgram).1 ≠ .ok (Value.Int 1) ∧
    (run_program 32 calleeLocalsProgram).1 = .ok Value.Null ∧
    (run_program 32 calleeLocalsProgram).1 ≠ .error (.UndefinedVariable "x") :=
  ⟨rfl, by decide, rfl, by decide⟩

/-- C3: execute_binary_op truncates float operands to i64 before operating
and re-widens the integer result, so ADD on Float 1.5 and Float 1.5 pushes
Float 2.0, not the Float 3.0 the claim requires. -/
theorem c3_float_add_truncates :
    (execute_instruction
      { LoomVM.new with stack := [Value.Float (3 / 2), Value.Float (3 / 2)] }
      Instruction.ADD).1 = .ok (Value.Float 2) ∧
    (execute_instruction
      { LoomVM.new with stack := [Value.Float (3 / 2), Value.Float (3 / 2)] }
      Instruction.ADD).1 ≠ .ok (Value.Float 3) := by
  have e : (3 / 2 : ℚ) = (⟨3, 2, by decide, by decide⟩ : ℚ) := by
    rw [Rat.mk'_eq_divInt, Rat.divInt_eq_div]
    norm_num
  rw [e]
  exact ⟨by decide, by decide⟩

/-- C4 counterexample: EQ on two booleans does not push a structural-equality
boolean; execute_comparison only accepts two integers, two floats or two
strings and raises TypeError for every other pair, booleans included. -/
theorem c4_counterexample_eq_on_bools :
    (execute_instruction { LoomVM.new with stack := [Value.Bool true, Value.Bool true] }
      Instruction.EQ).1 = .error (.TypeError "Invalid operands for comparison") ∧
    (execute_instruction { LoomVM.new with stack := [Value.Bool true, Value.Bool true] }
      Instruction.EQ).1 ≠ .ok (Value.Bool true) :=
  ⟨rfl, by decide⟩

/-- C5: the CALL_NATIVE arm of vm.rs handles only print and println in a
hard-coded match and never consults the Runtime registry of runtime.rs where
toUpperCase is registered, so the native-call scenario fails with
UndefinedFunction native:toUpperCase instead of returning String HI. -/
theorem c5_native_registry_not_routed :
    (run_program 32 nativeCallProgram).1 = .error (.UndefinedFunction "native:toUpperCase") ∧
    (run_program 32 nativeCallProgram).1 ≠ .ok (Value.String "HI") :=
  ⟨rfl, by decide⟩

/-- C6: the object round-trip scenario returns Integer 5: SET_FIELD pops the
value then the reference, writes the field through the heap and pushes the
value back, and GET_FIELD pops the reference and pushes the stored field; the
final heap holds object 1 of class Point with field x equal to Integer 5. -/
theorem c6_object_round_trip :
    (run_program 32 objectRoundTripProgram).1 = .ok (Value.Int 5) ∧
    (run_program 32 objectRoundTripProgram).2.memory.get_object 1 =
      some { id := 1, class_name := "Point", fields := [("x", Value.Int 5)], ref_count := 1 } :=
  ⟨rfl, rfl⟩

/-- C8 counterexample: DIV with right operand Integer 0 but a non-numeric
left operand fails with TypeError, not DivisionByZero: execute_binary_op
rejects the operand pair before the zero check can run. -/
theorem c8_counterexample_bool_left :
    (execute_instruction { LoomVM.new with stack := [Value.Int 0, Value.Bool true] }
      Instruction.DIV).1 = .error (.TypeError "Invalid operands for arithmetic operation") ∧
    (execute_instruction { LoomVM.new with stack := [Value.Int 0, Value.Bool true] }
      Instruction.DIV).1 ≠ .error .DivisionByZero :=
  ⟨rfl, by decide⟩

/-- Behaviour of execute_comparison on a stack holding right operand b above
left operand a: the i64 predicate is applied to two integers directly, to two
floats after truncation, and to the byte lengths of two strings; every other
pair raises TypeError. -/
theorem execute_comparison_spec (st : LoomVM) (op : ℤ → ℤ → Bool) (a b : Value)
    (rest : List Value) (hs : st.stack = b :: a :: rest) :
    execute_comparison st op =
      match a, b with
      | .Int x, .Int y =>
        (.ok (.Bool (op x y)), { st with stack := .Bool (op x y) :: rest })
      | .Float x, .Float y =>
        (.ok (.Bool (op (f64ToI64 x) (f64ToI64 y))),
         { st with stack := .Bool (op (f64ToI64 x) (f64ToI64 y)) :: rest })
      | .String s, .String t =>
        (.ok (.Bool (op (s.utf8ByteSize : ℤ) (t.utf8ByteSize : ℤ))),
         { st with stack := .Bool (op (s.utf8ByteSize : ℤ) (t.utf8ByteSize : ℤ)) :: rest })
      | _, _ =>
        (.error (.TypeError "Invalid operands for comparison"), { st with stack := rest }) := by
  obtain ⟨mem, prog, stk, loc, glob, cs, ip0, cf, dbg⟩ := st
  dsimp only at hs
  subst hs
  cases a <;> cases b <;> rfl

/-- C4 (amended): EQ, NE, LT, LE, GT and GE pop two values (top is the right
operand) and push a boolean only when both are integers, both are floats or
both are strings; the integer comparator is applied to the integers, to the
floats truncated to integers, or to the byte lengths of the strings, and
every other operand pair, booleans, null, references and mixed int/float
included, fails with TypeError. -/
theorem c4_comparison_semantics (st : LoomVM) (c : Instruction) (op : ℤ → ℤ → Bool)
    (a b : Value) (rest : List Value)
    (hc : comparisonOp c = some op) (hs : st.stack = b :: a :: rest) :
    execute_instruction st c =
      match a, b with
      | .Int x, .Int y =>
        (.ok (.Bool (op x y)), { st with stack := .Bool (op x y) :: rest })
      | .Float x, .Float y =>
        (.ok (.Bool (op (f64ToI64 x) (f64ToI64 y))),
         { st with stack := .Bool (op (f64ToI64 x) (f64ToI64 y)) :: rest })
      | .String s, .String t =>
        (.ok (.Bool (op (s.utf8ByteSize : ℤ) (t.utf8ByteSize : ℤ))),
         { st with stack := .Bool (op (s.utf8ByteSize : ℤ) (t.utf8ByteSize : ℤ)) :: rest })
      | _, _ =>
        (.error (.TypeError "Invalid operands for comparison"), { st with stack := rest }) := by
  cases c <;> first
    | exact Option.noConfusion hc
    | (injection hc with hop
       subst hop
       exact execute_comparison_spec _ _ a b rest hs)

/-- C4 witness: LT on integer operands 3 (left) and 5 (right) pushes true. -/
theorem c4_comparison_witness :
    execute_instruction { LoomVM.new with stack := [Value.Int 5, Value.Int 3] }
      Instruction.LT =
      (.ok (Value.Bool true), { LoomVM.new with stack := [Value.Bool true] }) :=
  c4_comparison_semantics _ Instruction.LT _ (Value.Int 3) (Value.Int 5) [] rfl rfl

/-- C8 (amended): DIV and MOD whose right (top-of-stack) operand is the
integer 0 and whose left operand is numeric (integer or float) fail with
DivisionByZero; in particular the scenario PUSH 10, PUSH 0, DIV fails with
DivisionByZero. -/
theorem c8_div_mod_zero (st : LoomVM) (a : Value) (rest : List Value) (x : ℤ) (q : ℚ)
    (hs : st.stack = Value.Int 0 :: a :: rest)
    (hnum : a = Value.Int x ∨ a = Value.Float q) :
    (execute_instruction st Instruction.DIV).1 = .error .DivisionByZero ∧
    (execute_instruction st Instruction.MOD).1 = .error .DivisionByZero ∧
    (run_program 32 divZeroProgram).1 = .error .DivisionByZero := by
  obtain ⟨mem, prog, stk, loc, glob, cs, ip0, cf, dbg⟩ := st
  dsimp only at hs
  subst hs
  rcases hnum with h | h <;> subst h <;> exact ⟨rfl, rfl, rfl⟩

/-- C10: SET_FIELD and SET_ELEMENT are atomic on failure: whenever the
instruction yields an error (wrong reference kind, missing heap entry,
out-of-range element index, stack underflow), the heap stores of the
resulting state are exactly those of the incoming state; every error path of
set_object_field, set_array_element, update_object and update_array returns
before the single write. -/
theorem c10_set_failure_atomic (st : LoomVM) (name : String) (e1 e2 : VmError) :
    ((execute_instruction st (Instruction.SET_FIELD name)).1 = .error e1 →
      (execute_instruction st (Instruction.SET_FIELD name)).2.memory = st.memory) ∧
    ((execute_instruction st Instruction.SET_ELEMENT).1 = .error e2 →
      (execute_instruction st Instruction.SET_ELEMENT).2.memory = st.memory) := by
  obtain ⟨mem, prog, stk, loc, glob, cs, ip0, cf, dbg⟩ := st
  constructor
  · rcases stk with _ | ⟨v, _ | ⟨ov, rest⟩⟩
    · intro _; rfl
    · intro _; rfl
    · cases ov <;> try (intro _; rfl)
      case Object id =>
        dsimp only [execute_instruction, set_object_field, MemoryManager.get_object,
          MemoryManager.update_object]
        rcases hf : assocFind mem.objects id with _ | obj
        · simp [hf]
        · simp only [hf]
          cases hcond : (assocFind mem.objects obj.id).isSome
          · simp [hcond]
          · simp [hcond]
  · rcases stk with _ | ⟨v, _ | ⟨iv, _ | ⟨av, rest⟩⟩⟩
    · intro _; rfl
    · intro _; rfl
    · intro _; rfl
    · cases av <;> try (intro _; rfl)
      case Array id =>
        cases iv <;> try (intro _; rfl)
        case Int index =>
          dsimp only [execute_instruction, set_array_element, MemoryManager.get_array,
            MemoryManager.update_array]
          rcases hf : assocFind mem.arrays id with _ | arr
          · simp [hf]
          · simp only [hf]
            by_cases hb : i64AsUsize index < arr.elements.length
            · simp only [hb, if_true]
              cases hcond : (assocFind mem.arrays arr.id).isSome
              · simp [hcond]
              · simp [hcond]
            · simp [hb]

/-- C10 witness: SET_FIELD x on a stack whose reference slot holds Null fails
with a Runtime error, SET_ELEMENT on the same two-value stack underflows, and
both leave the heap of that state untouched. -/
theorem c10_set_failure_atomic_witness :
    (execute_instruction { LoomVM.new with stack := [Value.Int 5, Value.Null] }
      (Instruction.SET_FIELD "x")).2.memory =
      ({ LoomVM.new with stack := [Value.Int 5, Value.Null] } : LoomVM).memory ∧
    (execute_instruction { LoomVM.new with stack := [Value.Int 5, Value.Null] }
      Instruction.SET_ELEMENT).2.memory =
      ({ LoomVM.new with stack := [Value.Int 5, Value.Null] } : LoomVM).memory := by
  have h := c10_set_failure_atomic
    { LoomVM.new with stack := [Value.Int 5, Value.Null] } "x"
    (.Runtime "Cannot set field x") .StackUnderflow
  exact ⟨h.1 rfl, h.2 rfl⟩

/-- C8 witness: PUSH 10, PUSH 0 on the stack, then DIV and MOD both fail with
DivisionByZero, as does the full scenario program. -/
theorem c8_div_mod_zero_witness :
    (execute_instruction { LoomVM.new with stack := [Value.Int 0, Value.Int 10] }
      Instruction.DIV).1 = .error .DivisionByZero ∧
    (execute_instruction { LoomVM.new with stack := [Value.Int 0, Value.Int 10] }
      Instruction.MOD).1 = .error .DivisionByZero ∧
    (run_program 32 divZeroProgram).1 = .error .DivisionByZero :=
  c8_div_mod_zero _ (Value.Int 10) [] 10 0 rfl (Or.inl rfl)


theorem apply_next_object_id (m : MemoryManager) (op : MemOp) :
    (op.apply m).next_object_id =
      match op with
      | .allocObject _ => m.next_object_id + 1
      | _ => m.next_object_id := by
  cases op with
  | allocObject cn => rfl
  | allocArray ty n => rfl
  | incRef v =>
    cases v <;> dsimp only [MemOp.apply, MemoryManager.increment_ref] <;> try rfl
    case Object id => cases assocFind m.objects id <;> rfl
    case Array id => cases assocFind m.arrays id <;> rfl
  | decRef v =>
    cases v <;> dsimp only [MemOp.apply, MemoryManager.decrement_ref] <;> try rfl
    case Object id =>
      cases assocFind m.objects id with
      | none => rfl
      | some obj => dsimp only; split <;> rfl
    case Array id =>
      cases assocFind m.arrays id with
      | none => rfl
      | some arr => dsimp only; split <;> rfl
  | updObject o =>
    dsimp only [MemOp.apply, MemoryManager.update_object]
    split <;> rfl
  | updArray a =>
    dsimp only [MemOp.apply, MemoryManager.update_array]
    split <;> rfl

theorem apply_next_array_id (m : MemoryManager) (op : MemOp) :
    (op.apply m).next_array_id =
      match op with
      | .allocArray _ _ => m.next_array_id + 1
      | _ => m.next_array_id := by
  cases op with
  | allocObject cn => rfl
  | allocArray ty n => rfl
  | incRef v =>
    cases v <;> dsimp only [MemOp.apply, MemoryManager.increment_ref] <;> try rfl
    case Object id => cases assocFind m.objects id <;> rfl
    case Array id => cases assocFind m.arrays id <;> rfl
  | decRef v =>
    cases v <;> dsimp only [MemOp.apply, MemoryManager.decrement_ref] <;> try rfl
    case Object id =>
      cases assocFind m.objects id with
      | none => rfl
      | some obj => dsimp only; split <;> rfl
    case Array id =>
      cases assocFind m.arrays id with
      | none => rfl
      | some arr => dsimp only; split <;> rfl
  | updObject o =>
    dsimp only [MemOp.apply, MemoryManager.update_object]
    split <;> rfl
  | updArray a =>
    dsimp only [MemOp.apply, MemoryManager.update_array]
    split <;> rfl

theorem objIdsReturned_range (ops : List MemOp) : ∀ m : MemoryManager,
    objIdsReturned m ops = List.range' m.next_object_id (countObjAllocs ops) := by
  induction ops with
  | nil => intro m; rfl
  | cons op rest ih =>
    intro m
    cases op with
    | allocObject cn =>
      show (m.allocate_object cn).1 :: objIdsReturned (MemOp.apply m (.allocObject cn)) rest = _
      rw [ih, apply_next_object_id]
      rfl
    | allocArray ty n =>
      show objIdsReturned (MemOp.apply m (.allocArray ty n)) rest = _
      rw [ih, apply_next_object_id]
      rfl
    | incRef v =>
      show objIdsReturned (MemOp.apply m (.incRef v)) rest = _
      rw [ih, apply_next_object_id]
      rfl
    | decRef v =>
      show objIdsReturned (MemOp.apply m (.decRef v)) rest = _
      rw [ih, apply_next_object_id]
      rfl
    | updObject o =>
      show objIdsReturned (MemOp.apply m (.updObject o)) rest = _
      rw [ih, apply_next_object_id]
      rfl
    | updArray a =>
      show objIdsReturned (MemOp.apply m (.updArray a)) rest = _
      rw [ih, apply_next_object_id]
      rfl

theorem arrIdsReturned_range (ops : List MemOp) : ∀ m : MemoryManager,
    arrIdsReturned m ops = List.range' m.next_array_id (countArrAllocs ops) := by
  induction ops with
  | nil => intro m; rfl
  | cons op rest ih =>
    intro m
    cases op with
    | allocObject cn =>
      show arrIdsReturned (MemOp.apply m (.allocObject cn)) rest = _
      rw [ih, apply_next_array_id]
      rfl
    | allocArray ty n =>
      show (m.allocate_array ty n).1 :: arrIdsReturned (MemOp.apply m (.allocArray ty n)) rest = _
      rw [ih, apply_next_array_id]
      rfl
    | incRef v =>
      show arrIdsReturned (MemOp.apply m (.incRef v)) rest = _
      rw [ih, apply_next_array_id]
      rfl
    | decRef v =>
      show arrIdsReturned (MemOp.apply m (.decRef v)) rest = _
      rw [ih, apply_next_array_id]
      rfl
    | updObject o =>
      show arrIdsReturned (MemOp.apply m (.updObject o)) rest = _
      rw [ih, apply_next_array_id]
      rfl
    | updArray a =>
      show arrIdsReturned (MemOp.apply m (.updArray a)) rest = _
      rw [ih, apply_next_array_id]
      rfl

theorem idsBelow_apply (m : MemoryManager) (op : MemOp) (h : IdsBelowNext m) :
    IdsBelowNext (MemOp.apply m op) := by
  obtain ⟨ho, ha⟩ := h
  cases op with
  | allocObject cn =>
    refine ⟨?_, fun id a hf => ha id a hf⟩
    intro id o hf
    dsimp only [MemOp.apply, MemoryManager.allocate_object] at hf ⊢
    rw [assocFind_insert] at hf
    split at hf
    · omega
    · exact Nat.lt_succ_of_lt (ho id o hf)
  | allocArray ty n =>
    refine ⟨fun id o hf => ho id o hf, ?_⟩
    intro id a hf
    dsimp only [MemOp.apply, MemoryManager.allocate_array] at hf ⊢
    rw [assocFind_insert] at hf
    split at hf
    · omega
    · exact Nat.lt_succ_of_lt (ha id a hf)
  | incRef v =>
    cases v with
    | Object oid =>
      dsimp only [MemOp.apply, MemoryManager.increment_ref]
      cases hf0 : assocFind m.objects oid with
      | none => exact ⟨ho, ha⟩
      | some obj =>
        refine ⟨?_, ha⟩
        intro id o hf
        dsimp only at hf ⊢
        rw [assocFind_insert] at hf
        split at hf
        · have := ho oid obj hf0
          omega
        · exact ho id o hf
    | Array aid =>
      dsimp only [MemOp.apply, MemoryManager.increment_ref]
      cases hf0 : assocFind m.arrays aid with
      | none => exact ⟨ho, ha⟩
      | some arr =>
        refine ⟨ho, ?_⟩
        intro id a hf
        dsimp only at hf ⊢
        rw [assocFind_insert] at hf
        split at hf
        · have := ha aid arr hf0
          omega
        · exact ha id a hf
    | Int i => exact ⟨ho, ha⟩
    | Float f => exact ⟨ho, ha⟩
    | Bool b => exact ⟨ho, ha⟩
    | String s => exact ⟨ho, ha⟩
    | Null => exact ⟨ho, ha⟩
    | Function fid => exact ⟨ho, ha⟩
  | decRef v =>
    cases v with
    | Object oid =>
      dsimp only [MemOp.apply, MemoryManager.decrement_ref]
      cases hf0 : assocFind m.objects oid with
      | none => exact ⟨ho, ha⟩
      | some obj =>
        dsimp only
        split
        · refine ⟨?_, ha⟩
          intro id o hf
          dsimp only at hf ⊢
          rw [assocFind_erase] at hf
          split at hf
          · exact absurd hf (by simp)
          · exact ho id o hf
        · refine ⟨?_, ha⟩
          intro id o hf
          dsimp only at hf ⊢
          rw [assocFind_insert] at hf
          split at hf
          · have := ho oid obj hf0
            omega
          · exact ho id o hf
    | Array aid =>
      dsimp only [MemOp.apply, MemoryManager.decrement_ref]
      cases hf0 : assocFind m.arrays aid with
      | none => exact ⟨ho, ha⟩
      | some arr =>
        dsimp only
        split
        · refine ⟨ho, ?_⟩
          intro id a hf
          dsimp only at hf ⊢
          rw [assocFind_erase] at hf
          split at hf
          · exact absurd hf (by simp)
          · exact ha id a hf
        · refine ⟨ho, ?_⟩
          intro id a hf
          dsimp only at hf ⊢
          rw [assocFind_insert] at hf
          split at hf
          · have := ha aid arr hf0
            omega
          · exact ha id a hf
    | Int i => exact ⟨ho, ha⟩
    | Float f => exact ⟨ho, ha⟩
    | Bool b => exact ⟨ho, ha⟩
    | String s => exact ⟨ho, ha⟩
    | Null => exact ⟨ho, ha⟩
    | Function fid => exact ⟨ho, ha⟩
  | updObject o =>
    dsimp only [MemOp.apply, MemoryManager.update_object]
    cases hs : (assocFind m.objects o.id).isSome with
    | false => simp only [hs, Bool.false_eq_true, if_false]; exact ⟨ho, ha⟩
    | true =>
      simp only [hs, if_true]
      refine ⟨?_, ha⟩
      intro id o2 hf
      dsimp only at hf ⊢
      rw [assocFind_insert] at hf
      split at hf
      · obtain ⟨entry, hentry⟩ := Option.isSome_iff_exists.mp hs
        have := ho o.id entry hentry
        omega
      · exact ho id o2 hf
  | updArray a =>
    dsimp only [MemOp.apply, MemoryManager.update_array]
    cases hs : (assocFind m.arrays a.id).isSome with
    | false => simp only [hs, Bool.false_eq_true, if_false]; exact ⟨ho, ha⟩
    | true =>
      simp only [hs, if_true]
      refine ⟨ho, ?_⟩
      intro id a2 hf
      dsimp only at hf ⊢
      rw [assocFind_insert] at hf
      split at hf
      · obtain ⟨entry, hentry⟩ := Option.isSome_iff_exists.mp hs
        have := ha a.id entry hentry
        omega
      · exact ha id a2 hf

theorem idsBelow_applyOps (ops : List MemOp) :
    IdsBelowNext (applyOps MemoryManager.new ops) := by
  have base : IdsBelowNext MemoryManager.new := by
    constructor <;> intro id x hf <;> simp [assocFind, MemoryManager.new] at hf
  have step : ∀ (m : MemoryManager), IdsBelowNext m → ∀ (l : List MemOp),
      IdsBelowNext (applyOps m l) := by
    intro m hm l
    induction l generalizing m with
    | nil => exact hm
    | cons op rest ih => exact ih _ (idsBelow_apply m op hm)
  exact step _ base ops



theorem countsPos_increment_ref (m : MemoryManager) (v : Value) (hm : CountsPos m) :
    CountsPos (m.increment_ref v) := by
  simp only [CountsPos, countsPosB, Bool.and_eq_true] at hm ⊢
  obtain ⟨hmo, hma⟩ := hm
  cases v with
  | Object vid =>
    dsimp only [MemoryManager.increment_ref]
    cases hf : assocFind m.objects vid with
    | none => exact ⟨hmo, hma⟩
    | some obj =>
      dsimp only
      refine ⟨all_assocInsert _ _ _ _ hmo ?_, hma⟩
      exact decide_eq_true (Nat.le_add_left 1 obj.ref_count)
  | Array vid =>
    dsimp only [MemoryManager.increment_ref]
    cases hf : assocFind m.arrays vid with
    | none => exact ⟨hmo, hma⟩
    | some arr =>
      dsimp only
      refine ⟨hmo, all_assocInsert _ _ _ _ hma ?_⟩
      exact decide_eq_true (Nat.le_add_left 1 arr.ref_count)
  | Int i => exact ⟨hmo, hma⟩
  | Float f => exact ⟨hmo, hma⟩
  | Bool b => exact ⟨hmo, hma⟩
  | String s => exact ⟨hmo, hma⟩
  | Null => exact ⟨hmo, hma⟩
  | Function fid => exact ⟨hmo, hma⟩

theorem countsPos_decrement_ref (m : MemoryManager) (v : Value) (hm : CountsPos m) :
    CountsPos (m.decrement_ref v) := by
  simp only [CountsPos, countsPosB, Bool.and_eq_true] at hm ⊢
  obtain ⟨hmo, hma⟩ := hm
  cases v with
  | Object vid =>
    dsimp only [MemoryManager.decrement_ref]
    cases hf : assocFind m.objects vid with
    | none => exact ⟨hmo, hma⟩
    | some obj =>
      dsimp only
      split
      · exact ⟨all_filter _ _ _ hmo, hma⟩
      · refine ⟨all_assocInsert _ _ _ _ hmo ?_, hma⟩
        next hne =>
        exact decide_eq_true (Nat.one_le_iff_ne_zero.mpr hne)
  | Array vid =>
    dsimp only [MemoryManager.decrement_ref]
    cases hf : assocFind m.arrays vid with
    | none => exact ⟨hmo, hma⟩
    | some arr =>
      dsimp only
      split
      · exact ⟨hmo, all_filter _ _ _ hma⟩
      · refine ⟨hmo, all_assocInsert _ _ _ _ hma ?_⟩
        next hne =>
        exact decide_eq_true (Nat.one_le_iff_ne_zero.mpr hne)
  | Int i => exact ⟨hmo, hma⟩
  | Float f => exact ⟨hmo, hma⟩
  | Bool b => exact ⟨hmo, hma⟩
  | String s => exact ⟨hmo, hma⟩
  | Null => exact ⟨hmo, hma⟩
  | Function fid => exact ⟨hmo, hma⟩


theorem decrement_ref_get_object (m : MemoryManager) (oid : Nat) (o : Object)
    (hpos : 1 ≤ o.ref_count) (ho : m.get_object oid = some o) :
    (m.decrement_ref (Value.Object oid)).get_object oid =
      if o.ref_count = 1 then none else some { o with ref_count := o.ref_count - 1 } := by
  dsimp only [MemoryManager.decrement_ref, MemoryManager.get_object] at ho ⊢
  rw [ho]
  dsimp only
  by_cases h1 : o.ref_count = 1
  · have h0 : o.ref_count - 1 = 0 := by omega
    rw [if_pos h0, if_pos h1]
    dsimp only
    rw [assocFind_erase, if_pos rfl]
  · have h0 : ¬ (o.ref_count - 1 = 0) := by omega
    rw [if_neg h0, if_neg h1]
    dsimp only
    rw [assocFind_insert, if_pos rfl]

theorem decrement_ref_get_array (m : MemoryManager) (aid : Nat) (a : Array)
    (hpos : 1 ≤ a.ref_count) (ha : m.get_array aid = some a) :
    (m.decrement_ref (Value.Array aid)).get_array aid =
      if a.ref_count = 1 then none else some { a with ref_count := a.ref_count - 1 } := by
  dsimp only [MemoryManager.decrement_ref, MemoryManager.get_array] at ha ⊢
  rw [ha]
  dsimp only
  by_cases h1 : a.ref_count = 1
  · have h0 : a.ref_count - 1 = 0 := by omega
    rw [if_pos h0, if_pos h1]
    dsimp only
    rw [assocFind_erase, if_pos rfl]
  · have h0 : ¬ (a.ref_count - 1 = 0) := by omega
    rw [if_neg h0, if_neg h1]
    dsimp only
    rw [assocFind_insert, if_pos rfl]

/-- C7: within one VM lifetime the object ids handed out by allocate_object
along ANY sequence of MemoryManager calls are exactly 1, 2, ..., k (strictly
increasing, starting at 1, never reused), and likewise for allocate_array in
the array store; allocate_object yields an entry with reference count 1 and
an empty field map, allocate_array yields an entry whose size elements are
all Null with reference count 1, and in every reachable heap the id about to
be handed out is absent from its store (fresh). -/
theorem c7_allocation_ids_monotone (ops : List MemOp) (m : MemoryManager)
    (cn ty : String) (n : Nat) :
    objIdsReturned MemoryManager.new ops = List.range' 1 (countObjAllocs ops) ∧
    arrIdsReturned MemoryManager.new ops = List.range' 1 (countArrAllocs ops) ∧
    (m.allocate_object cn).1 = m.next_object_id ∧
    (m.allocate_object cn).2.get_object m.next_object_id =
      some { id := m.next_object_id, class_name := cn, fields := [], ref_count := 1 } ∧
    (m.allocate_array ty n).1 = m.next_array_id ∧
    (m.allocate_array ty n).2.get_array m.next_array_id =
      some { id := m.next_array_id, element_type := ty,
             elements := List.replicate n Value.Null, ref_count := 1 } ∧
    (applyOps MemoryManager.new ops).get_object
      (applyOps MemoryManager.new ops).next_object_id = none ∧
    (applyOps MemoryManager.new ops).get_array
      (applyOps MemoryManager.new ops).next_array_id = none := by
  obtain ⟨ho, ha⟩ := idsBelow_applyOps ops
  refine ⟨objIdsReturned_range ops _, arrIdsReturned_range ops _, rfl, ?_, rfl, ?_, ?_, ?_⟩
  · dsimp only [MemoryManager.allocate_object, MemoryManager.get_object]
    rw [assocFind_insert]
    simp
  · dsimp only [MemoryManager.allocate_array, MemoryManager.get_array]
    rw [assocFind_insert]
    simp
  · cases hf : (applyOps MemoryManager.new ops).get_object
        (applyOps MemoryManager.new ops).next_object_id with
    | none => rfl
    | some o => exact absurd (ho _ o hf) (lt_irrefl _)
  · cases hf : (applyOps MemoryManager.new ops).get_array
        (applyOps MemoryManager.new ops).next_array_id with
    | none => rfl
    | some a => exact absurd (ha _ a hf) (lt_irrefl _)

/-- C9: every entry of a positive-count heap keeps a reference count of at
least 1 under every MemoryManager operation: the empty heap is positive,
allocation inserts entries with count 1, increment_ref preserves positivity,
and decrement_ref removes the entry exactly when the count 1 would reach 0,
otherwise leaving it with the decremented positive count, so no live entry is
observable with count 0. -/
theorem c9_ref_counts_positive (m : MemoryManager) (cn ty : String) (n : Nat)
    (v : Value) (oid aid : Nat) (o : Object) (a : Array)
    (hm : CountsPos m) (ho : m.get_object oid = some o) (ha : m.get_array aid = some a) :
    CountsPos MemoryManager.new ∧
    CountsPos (m.allocate_object cn).2 ∧
    CountsPos (m.allocate_array ty n).2 ∧
    CountsPos (m.increment_ref v) ∧
    CountsPos (m.decrement_ref v) ∧
    (m.decrement_ref (Value.Object oid)).get_object oid =
      (if o.ref_count = 1 then none else some { o with ref_count := o.ref_count - 1 }) ∧
    (m.decrement_ref (Value.Array aid)).get_array aid =
      (if a.ref_count = 1 then none else some { a with ref_count := a.ref_count - 1 }) := by
  have hm2 := hm
  simp only [CountsPos, countsPosB, Bool.and_eq_true] at hm2
  obtain ⟨hmo, hma⟩ := hm2
  have hpos_o : 1 ≤ o.ref_count :=
    of_decide_eq_true (List.all_eq_true.mp hmo (oid, o) (assocFind_some_mem _ _ _ ho))
  have hpos_a : 1 ≤ a.ref_count :=
    of_decide_eq_true (List.all_eq_true.mp hma (aid, a) (assocFind_some_mem _ _ _ ha))
  refine ⟨by rfl, ?_, ?_, countsPos_increment_ref m v hm, countsPos_decrement_ref m v hm,
    decrement_ref_get_object m oid o hpos_o ho, decrement_ref_get_array m aid a hpos_a ha⟩
  · simp only [CountsPos, countsPosB, Bool.and_eq_true]
    dsimp only [MemoryManager.allocate_object]
    exact ⟨all_assocInsert _ _ _ _ hmo rfl, hma⟩
  · simp only [CountsPos, countsPosB, Bool.and_eq_true]
    dsimp only [MemoryManager.allocate_array]
    exact ⟨hmo, all_assocInsert _ _ _ _ hma rfl⟩

/-- C9 witness: on a heap holding object 1 with count 2 and array 3 with
count 1, allocation, increment and decrement keep all counts positive;
decrementing object 1 leaves it with count 1 while decrementing array 3
removes it. -/
theorem c9_ref_counts_positive_witness :
    CountsPos MemoryManager.new ∧
    CountsPos (memW.allocate_object "B").2 ∧
    CountsPos (memW.allocate_array "int" 3).2 ∧
    CountsPos (memW.increment_ref (Value.Object 1)) ∧
    CountsPos (memW.decrement_ref (Value.Object 1)) ∧
    (memW.decrement_ref (Value.Object 1)).get_object 1 =
      some { id := 1, class_name := "A", fields := [], ref_count := 1 } ∧
    (memW.decrement_ref (Value.Array 3)).get_array 3 = none :=
  c9_ref_counts_positive memW "B" "int" 3 (Value.Object 1) 1 3
    { id := 1, class_name := "A", fields := [], ref_count := 2 }
    { id := 3, element_type := "int", elements := [Value.Null], ref_count := 1 }
    rfl rfl rfl

end Loom
